import Mathlib

/-!
Verification of the HiAgent adapter (`graphrag/language_model/providers/hiagent`):
a shallow embedding of the transport client's streaming decoder
(`client.py`, `HiAgentLLMClient.chat_query_streaming`) and of the chat façade
(`chat_model.py`, `HiAgentChatLLM`), with theorems checking the specification's
claims against the embedded code.

Conventions of the embedding:
* raw bytes are `Nat` (values 0..255); the newline byte is `10`;
* Python strings are `List Char`; `str.strip()` is `pyStrip` (whitespace
  trimming on both ends) and `str.startswith(p)` is `pyStartsWith`;
* the Python library functions `bytes.decode("utf-8")` and `json.loads` are
  external collaborators, modelled as parameters
  `decodeUtf8 : List Nat → Option (List Char)` and
  `jsonParse : List Char → Option JVal`
  (`none` models the raised `UnicodeDecodeError` / `JSONDecodeError`);
* parsed JSON values are the inductive `JVal`; Python `dict.get` is `pyGet`
  (one-argument form, `AttributeError` on a non-dict receiver) and `pyGetD`
  (two-argument form with a default);
* a generator is modelled by the list of values it yields, paired with the
  exception, if any, that ends the iteration early.
-/

namespace Hiagent

/-- Parsed JSON values as produced by `json.loads`. -/
inductive JVal where
  | null : JVal
  | bool : Bool → JVal
  | num : Int → JVal
  | str : List Char → JVal
  | arr : List JVal → JVal
  | obj : List (List Char × JVal) → JVal

/-- The Python exception classes that the adapter's control flow distinguishes. -/
inductive PyExc where
  | requestException : PyExc
  | attributeError : PyExc
  | typeError : PyExc
  | jsonDecodeError : PyExc
  | unicodeDecodeError : PyExc
  | other : Nat → PyExc
deriving DecidableEq

/-- Python truthiness of a JSON value (`if answer:`). -/
def pyTruthy : JVal → Bool
  | .null => false
  | .bool b => b
  | .num n => n ≠ 0
  | .str s => !s.isEmpty
  | .arr xs => !xs.isEmpty
  | .obj fs => !fs.isEmpty

/-- `s.strip()` on a Python string: remove leading and trailing whitespace. -/
def pyStrip (s : List Char) : List Char :=
  ((s.dropWhile Char.isWhitespace).reverse.dropWhile Char.isWhitespace).reverse

/-- `s.startswith(p)` on a Python string. -/
def pyStartsWith (s p : List Char) : Bool :=
  p.isPrefixOf s

/-- `v.get(k)` on a Python value: on a dict, the value at `k` (or `None`);
on anything else (including `None`), an `AttributeError`. -/
def pyGet (v : JVal) (k : List Char) : Except PyExc JVal :=
  match v with
  | .obj fs => .ok ((fs.lookup k).getD .null)
  | _ => .error .attributeError

/-- `v.get(k, d)` on a Python value: on a dict, the value at `k` (or `d`);
on anything else, an `AttributeError`. -/
def pyGetD (v : JVal) (k : List Char) (d : JVal) : Except PyExc JVal :=
  match v with
  | .obj fs => .ok ((fs.lookup k).getD d)
  | _ => .error .attributeError

section Decoder

variable (decodeUtf8 : List Nat → Option (List Char)) (jsonParse : List Char → Option JVal)

/-- The `while b"\n" in buffer` loop of `chat_query_streaming`
(client.py lines 130-131): repeatedly split the buffer at the first newline
byte, returning the complete lines in order and the leftover buffer (which
contains no newline). -/
def drainBuffer : List Nat → List (List Nat) × List Nat
  | [] => ([], [])
  | b :: rest =>
    if b = 10 then ([] :: (drainBuffer rest).1, (drainBuffer rest).2)
    else
      match drainBuffer rest with
      | ([], tail) => ([], b :: tail)
      | (l :: ls, tail) => ((b :: l) :: ls, tail)

/-- Processing of one fully assembled line in the main loop of
`chat_query_streaming` (client.py lines 133-165), without the callback:
decode as UTF-8 (drop the line on failure), strip, skip empty lines and lines
not starting with `data:`, else strip the prefix and parse the rest as JSON
(drop the line on failure). -/
def processLine (lineBytes : List Nat) : Option JVal :=
  match decodeUtf8 lineBytes with
  | none => none
  | some s =>
    let line := pyStrip s
    if line = [] then none
    else if pyStartsWith line "data:".data then jsonParse (pyStrip (line.drop 5))
    else none

/-- Processing of the trailing buffer after the chunk stream is exhausted
(client.py lines 167-177), without the callback: decode, strip, and if the
line starts with `data:` parse the remainder; any decode or parse failure
yields nothing. -/
def processTrailing (buf : List Nat) : Option JVal :=
  match decodeUtf8 buf with
  | none => none
  | some s =>
    let line := pyStrip s
    if pyStartsWith line "data:".data then jsonParse (pyStrip (line.drop 5))
    else none

/-- The chunk loop of `chat_query_streaming` (client.py lines 113-165),
without the callback: starting from `buf`, append each chunk (skipping empty
chunks), drain all complete lines, and emit the events those lines produce.
Returns the emitted events and the final buffer. -/
def mainEvents (buf : List Nat) : List (List Nat) → List JVal × List Nat
  | [] => ([], buf)
  | c :: cs =>
    if c = [] then mainEvents buf cs
    else
      let d := drainBuffer (buf ++ c)
      let rest := mainEvents d.2 cs
      (d.1.filterMap (processLine decodeUtf8 jsonParse) ++ rest.1, rest.2)

/-- The full decoder of `chat_query_streaming` (client.py lines 109-177),
without the callback: run the chunk loop from an empty buffer, then, if a
non-empty trailing fragment remains, best-effort decode it as one final
event. The result is the ordered list of yielded events. -/
def chatQueryStreaming (chunks : List (List Nat)) : List JVal :=
  let m := mainEvents decodeUtf8 jsonParse [] chunks
  m.1 ++ (if m.2 = [] then [] else (processTrailing decodeUtf8 jsonParse m.2).toList)

variable (onMessage : JVal → Except PyExc Unit)

/-- Processing of one fully assembled line in the main loop, with the
`on_message` callback (client.py lines 133-165). Result: whether the
callback was invoked, the event yielded by this line (if any), and the
exception aborting the generator (if any). The callback runs inside the
`try .. except json.JSONDecodeError` block, so a `JSONDecodeError` raised by
the callback is caught there (event skipped, iteration continues), while any
other exception propagates out of the generator. -/
def lineStepCb (lineBytes : List Nat) : Bool × Option JVal × Option PyExc :=
  match decodeUtf8 lineBytes with
  | none => (false, none, none)
  | some s =>
    let line := pyStrip s
    if line = [] then (false, none, none)
    else if pyStartsWith line "data:".data then
      match jsonParse (pyStrip (line.drop 5)) with
      | none => (false, none, none)
      | some d =>
        match onMessage d with
        | .ok _ => (true, some d, none)
        | .error .jsonDecodeError => (true, none, none)
        | .error e => (true, none, some e)
    else (false, none, none)

/-- Processing of a list of assembled lines with the callback: events yielded
before the first aborting exception, and that exception. -/
def linesCb : List (List Nat) → List JVal × Option PyExc
  | [] => ([], none)
  | l :: ls =>
    match lineStepCb decodeUtf8 jsonParse onMessage l with
    | (_, _, some e) => ([], some e)
    | (_, some d, none) =>
      let r := linesCb ls
      (d :: r.1, r.2)
    | (_, none, none) => linesCb ls

/-- The chunk loop with the callback: yields and final buffer, stopping at
the first aborting exception. -/
def mainEventsCb (buf : List Nat) : List (List Nat) → List JVal × List Nat × Option PyExc
  | [] => ([], buf, none)
  | c :: cs =>
    if c = [] then mainEventsCb buf cs
    else
      let d := drainBuffer (buf ++ c)
      match linesCb decodeUtf8 jsonParse onMessage d.1 with
      | (evs, some e) => (evs, d.2, some e)
      | (evs, none) =>
        let r := mainEventsCb d.2 cs
        (evs ++ r.1, r.2.1, r.2.2)

/-- Processing of the trailing buffer with the callback (client.py lines
167-177): the callback runs inside `try .. except (UnicodeDecodeError,
json.JSONDecodeError): pass`, so those two exception classes raised by the
callback are swallowed; any other exception propagates. -/
def trailingCb (buf : List Nat) : List JVal × Option PyExc :=
  match decodeUtf8 buf with
  | none => ([], none)
  | some s =>
    let line := pyStrip s
    if pyStartsWith line "data:".data then
      match jsonParse (pyStrip (line.drop 5)) with
      | none => ([], none)
      | some d =>
        match onMessage d with
        | .ok _ => ([d], none)
        | .error .jsonDecodeError => ([], none)
        | .error .unicodeDecodeError => ([], none)
        | .error e => ([], some e)
    else ([], none)

/-- The full decoder with the `on_message` callback: ordered list of yielded
events and the exception, if any, that aborted the iteration. -/
def chatQueryStreamingCb (chunks : List (List Nat)) : List JVal × Option PyExc :=
  match mainEventsCb decodeUtf8 jsonParse onMessage [] chunks with
  | (evs, _, some e) => (evs, some e)
  | (evs, buf, none) =>
    if buf = [] then (evs, none)
    else
      let t := trailingCb decodeUtf8 jsonParse onMessage buf
      (evs ++ t.1, t.2)

end Decoder

/-- Specification-side description of running a callback down a list of
events: an event on which the callback succeeds is yielded; an event on which
it raises `json.JSONDecodeError` is skipped; any other exception stops
processing and is reported. -/
def cbSpec (onMessage : JVal → Except PyExc Unit) : List JVal → List JVal × Option PyExc
  | [] => ([], none)
  | d :: t =>
    match onMessage d with
    | .ok _ =>
      let r := cbSpec onMessage t
      (d :: r.1, r.2)
    | .error .jsonDecodeError => cbSpec onMessage t
    | .error e => ([], some e)

/-- Specification-side description of running the callback on the optional
trailing event: a successful callback lets the event be yielded; a
`json.JSONDecodeError` or `UnicodeDecodeError` raised by the callback is
swallowed by the trailing block's wider except clause (no event, no error);
any other exception propagates. -/
def cbTrailSpec (onMessage : JVal → Except PyExc Unit) :
    Option JVal → List JVal × Option PyExc
  | none => ([], none)
  | some d =>
    match onMessage d with
    | .ok _ => ([d], none)
    | .error .jsonDecodeError => ([], none)
    | .error .unicodeDecodeError => ([], none)
    | .error e => ([], some e)

/-- Specification-side description of the whole callback-instrumented run:
the main-loop events are processed by `cbSpec`; if none of them aborted, the
optional trailing event is processed by `cbTrailSpec`. -/
def cbRunSpec (onMessage : JVal → Except PyExc Unit) (mainEvs : List JVal)
    (trail : Option JVal) : List JVal × Option PyExc :=
  match cbSpec onMessage mainEvs with
  | (evs, some e) => (evs, some e)
  | (evs, none) =>
    let t := cbTrailSpec onMessage trail
    (evs ++ t.1, t.2)

/-! ### Properties of the buffer-draining loop -/

theorem drainBuffer_fst_nil {t : List Nat} (h : (drainBuffer t).1 = []) :
    (drainBuffer t).2 = t := by
  induction t with
  | nil => rfl
  | cons b rest ih =>
    by_cases hb : b = 10
    · simp [drainBuffer, hb] at h
    · simp only [drainBuffer, if_neg hb] at h ⊢
      rcases hr : drainBuffer rest with ⟨ls, tail⟩
      cases ls with
      | nil =>
        simp only [hr]
        have := ih (by rw [hr])
        rw [hr] at this
        simp at this
        simp [this]
      | cons l ls' => simp [hr] at h

theorem drainBuffer_snd_no_newline (t : List Nat) : 10 ∉ (drainBuffer t).2 := by
  induction t with
  | nil => simp [drainBuffer]
  | cons b rest ih =>
    by_cases hb : b = 10
    · simpa [drainBuffer, hb] using ih
    · simp only [drainBuffer, if_neg hb]
      rcases hr : drainBuffer rest with ⟨ls, tail⟩
      rw [hr] at ih
      cases ls with
      | nil =>
        simp only [List.mem_cons, not_or]
        exact ⟨fun h => hb h.symm, ih⟩
      | cons l ls' => exact ih

theorem drainBuffer_no_newline {l : List Nat} (h : 10 ∉ l) : drainBuffer l = ([], l) := by
  induction l with
  | nil => rfl
  | cons b rest ih =>
    have hb : b ≠ 10 := fun hb => h (by simp [hb])
    have hrest : 10 ∉ rest := fun hr => h (by simp [hr])
    simp only [drainBuffer, if_neg hb, ih hrest]

/-- The loop `while b"\n" in buffer: line, buffer = buffer.split(b"\n", 1)`
splits off everything before the first newline as one line: `drainBuffer`
computes exactly that iterated first-split. -/
theorem drainBuffer_first_split {l : List Nat} (rest : List Nat) (h : 10 ∉ l) :
    drainBuffer (l ++ 10 :: rest) =
      (l :: (drainBuffer rest).1, (drainBuffer rest).2) := by
  induction l with
  | nil => simp [drainBuffer]
  | cons b t ih =>
    have hb : b ≠ 10 := fun hb => h (by simp [hb])
    have ht : 10 ∉ t := fun hr => h (by simp [hr])
    have hstep : t.append (10 :: rest) = t ++ 10 :: rest := rfl
    simp only [List.cons_append, drainBuffer, if_neg hb, hstep, ih ht]

theorem drainBuffer_append (a b : List Nat) :
    drainBuffer (a ++ b) =
      ((drainBuffer a).1 ++ (drainBuffer ((drainBuffer a).2 ++ b)).1,
        (drainBuffer ((drainBuffer a).2 ++ b)).2) := by
  induction a with
  | nil => simp [drainBuffer]
  | cons x t ih =>
    by_cases hx : x = 10
    · subst hx
      simp [drainBuffer, ih, List.cons_append]
    · rcases ht : drainBuffer t with ⟨ls, tail⟩
      cases ls with
      | nil =>
        have h2 : tail = t := by
          have h3 : (drainBuffer t).2 = t := drainBuffer_fst_nil (by rw [ht])
          rw [ht] at h3; simpa using h3
        subst h2
        simp [drainBuffer, if_neg hx, ht, List.cons_append]
      | cons l ls' =>
        have hd : drainBuffer (x :: t) = ((x :: l) :: ls', tail) := by
          simp [drainBuffer, if_neg hx, ht]
        rw [ht] at ih
        have hstep :
            drainBuffer (x :: t ++ b) =
              ((x :: l) :: (ls' ++ (drainBuffer (tail ++ b)).1),
                (drainBuffer (tail ++ b)).2) := by
          have happ : t.append b = t ++ b := rfl
          simp only [List.cons_append, drainBuffer, if_neg hx, happ, ih]
        rw [hstep, hd]
        simp [List.cons_append]

/-- The chunk loop starting from a newline-free carry buffer computes the
same lines as draining the carry followed by the whole remaining input. -/
theorem mainEvents_eq_drain (decodeUtf8 : List Nat → Option (List Char))
    (jsonParse : List Char → Option JVal) (chunks : List (List Nat)) (buf : List Nat)
    (hbuf : 10 ∉ buf) :
    mainEvents decodeUtf8 jsonParse buf chunks =
      ((drainBuffer (buf ++ chunks.flatten)).1.filterMap (processLine decodeUtf8 jsonParse),
        (drainBuffer (buf ++ chunks.flatten)).2) := by
  induction chunks generalizing buf with
  | nil =>
    simp [mainEvents, drainBuffer_no_newline hbuf]
  | cons c cs ih =>
    by_cases hc : c = []
    · subst hc
      simpa [mainEvents] using ih buf hbuf
    · have hsnd := drainBuffer_snd_no_newline (buf ++ c)
      simp only [mainEvents, if_neg hc, ih _ hsnd, List.flatten_cons]
      rw [← List.append_assoc, drainBuffer_append (buf ++ c) cs.flatten]
      simp [List.filterMap_append]

/-- C1 core: the decoder's yields depend only on the concatenation of the
chunks, not on the chunk boundaries. -/
theorem chatQueryStreaming_join (decodeUtf8 : List Nat → Option (List Char))
    (jsonParse : List Char → Option JVal) (chunks : List (List Nat)) :
    chatQueryStreaming decodeUtf8 jsonParse chunks =
      chatQueryStreaming decodeUtf8 jsonParse [chunks.flatten] := by
  unfold chatQueryStreaming
  rw [mainEvents_eq_drain _ _ chunks [] (by simp),
    mainEvents_eq_drain _ _ [chunks.flatten] [] (by simp)]
  simp

/-! ### Relating the callback-instrumented decoder to the pure one -/

theorem lineStepCb_eq_processLine (decodeUtf8 : List Nat → Option (List Char))
    (jsonParse : List Char → Option JVal) (onMessage : JVal → Except PyExc Unit)
    (l : List Nat) :
    lineStepCb decodeUtf8 jsonParse onMessage l =
      match processLine decodeUtf8 jsonParse l with
      | none => (false, none, none)
      | some d =>
        match onMessage d with
        | .ok _ => (true, some d, none)
        | .error .jsonDecodeError => (true, none, none)
        | .error e => (true, none, some e) := by
  unfold lineStepCb processLine
  cases hdu : decodeUtf8 l with
  | none => rfl
  | some s =>
    by_cases h1 : pyStrip s = []
    · simp [h1]
    · by_cases h2 : pyStartsWith (pyStrip s) "data:".data
      · simp only [h1, h2, if_neg, if_pos, if_false, if_true]
      · simp [h1, h2]

theorem linesCb_eq_cbSpec (decodeUtf8 : List Nat → Option (List Char))
    (jsonParse : List Char → Option JVal) (onMessage : JVal → Except PyExc Unit)
    (ls : List (List Nat)) :
    linesCb decodeUtf8 jsonParse onMessage ls =
      cbSpec onMessage (ls.filterMap (processLine decodeUtf8 jsonParse)) := by
  induction ls with
  | nil => rfl
  | cons l ls ih =>
    simp only [linesCb, lineStepCb_eq_processLine, List.filterMap_cons]
    cases hp : processLine decodeUtf8 jsonParse l with
    | none => simpa using ih
    | some d =>
      simp only [cbSpec]
      cases hcb : onMessage d with
      | ok u => simp [ih]
      | error e => cases e <;> simp [ih]

theorem cbSpec_append (onMessage : JVal → Except PyExc Unit) (l1 l2 : List JVal) :
    cbSpec onMessage (l1 ++ l2) =
      match cbSpec onMessage l1 with
      | (evs, some e) => (evs, some e)
      | (evs, none) =>
        (evs ++ (cbSpec onMessage l2).1, (cbSpec onMessage l2).2) := by
  induction l1 with
  | nil => simp [cbSpec]
  | cons d t ih =>
    rcases hs : cbSpec onMessage t with ⟨evs, err⟩
    rw [hs] at ih
    cases hcb : onMessage d with
    | ok u => cases err <;> simp [cbSpec, hcb, ih, hs]
    | error e => cases e <;> cases err <;> simp [cbSpec, hcb, ih, hs]

theorem mainEventsCb_eq_cbSpec (decodeUtf8 : List Nat → Option (List Char))
    (jsonParse : List Char → Option JVal) (onMessage : JVal → Except PyExc Unit)
    (chunks : List (List Nat)) (buf : List Nat) :
    (mainEventsCb decodeUtf8 jsonParse onMessage buf chunks).1 =
        (cbSpec onMessage (mainEvents decodeUtf8 jsonParse buf chunks).1).1
      ∧ (mainEventsCb decodeUtf8 jsonParse onMessage buf chunks).2.2 =
        (cbSpec onMessage (mainEvents decodeUtf8 jsonParse buf chunks).1).2
      ∧ ((mainEventsCb decodeUtf8 jsonParse onMessage buf chunks).2.2 = none →
          (mainEventsCb decodeUtf8 jsonParse onMessage buf chunks).2.1 =
            (mainEvents decodeUtf8 jsonParse buf chunks).2) := by
  induction chunks generalizing buf with
  | nil => simp [mainEventsCb, mainEvents, cbSpec]
  | cons c cs ih =>
    by_cases hc : c = []
    · simpa [mainEventsCb, mainEvents, hc] using ih buf
    · simp only [mainEventsCb, mainEvents, if_neg hc,
        linesCb_eq_cbSpec, cbSpec_append]
      rcases hs : cbSpec onMessage
          ((drainBuffer (buf ++ c)).1.filterMap
            (processLine decodeUtf8 jsonParse)) with ⟨evs, err⟩
      obtain ⟨ih1, ih2, ih3⟩ := ih (drainBuffer (buf ++ c)).2
      cases err with
      | some e => simp
      | none => exact ⟨by simp [ih1], by simp [ih2], fun h4 => ih3 h4⟩

/-- With the callback, the decoder yields the longest effective prefix of
the pure decoder's events as described by `cbSpec`, provided the input ends
on a frame boundary (empty final buffer). -/
theorem chatQueryStreamingCb_eq_cbSpec (decodeUtf8 : List Nat → Option (List Char))
    (jsonParse : List Char → Option JVal) (onMessage : JVal → Except PyExc Unit)
    (chunks : List (List Nat)) (h : (drainBuffer chunks.flatten).2 = []) :
    chatQueryStreamingCb decodeUtf8 jsonParse onMessage chunks =
      cbSpec onMessage (chatQueryStreaming decodeUtf8 jsonParse chunks) := by
  have hm := mainEvents_eq_drain decodeUtf8 jsonParse chunks [] (by simp)
  obtain ⟨h1, h2, h3⟩ :=
    mainEventsCb_eq_cbSpec decodeUtf8 jsonParse onMessage chunks []
  unfold chatQueryStreamingCb chatQueryStreaming
  rcases hc : mainEventsCb decodeUtf8 jsonParse onMessage [] chunks with ⟨evs, buf2, err⟩
  rw [hc] at h1 h2 h3
  have hm2 : (mainEvents decodeUtf8 jsonParse [] chunks).2 = [] := by
    rw [hm]; simpa using h
  cases err with
  | some e =>
    simp only [hm2, if_pos rfl]
    rcases hcs : cbSpec onMessage (mainEvents decodeUtf8 jsonParse [] chunks).1
      with ⟨evs', err'⟩
    rw [hcs] at h1 h2
    simp at h1 h2
    simp [hcs, ← h2, h1]
  | none =>
    have hb : buf2 = [] := by simpa [hm2] using h3 rfl
    simp only [hb, if_pos rfl, hm2]
    rcases hcs : cbSpec onMessage (mainEvents decodeUtf8 jsonParse [] chunks).1
      with ⟨evs', err'⟩
    rw [hcs] at h1 h2
    simp at h1 h2
    simp [hcs, ← h2, h1]

/-- The trailing block with the callback computes exactly `cbTrailSpec` of
the pure trailing event. -/
theorem trailingCb_eq_cbTrailSpec (decodeUtf8 : List Nat → Option (List Char))
    (jsonParse : List Char → Option JVal) (onMessage : JVal → Except PyExc Unit)
    (buf : List Nat) :
    trailingCb decodeUtf8 jsonParse onMessage buf =
      cbTrailSpec onMessage (processTrailing decodeUtf8 jsonParse buf) := by
  unfold trailingCb processTrailing
  cases hd : decodeUtf8 buf with
  | none => rfl
  | some s =>
    by_cases hsw : pyStartsWith (pyStrip s) "data:".data
    · simp only [hsw, if_true]
      cases jsonParse (pyStrip ((pyStrip s).drop 5)) <;> rfl
    · simp [hsw, cbTrailSpec]

/-! ### The chat façade (`chat_model.py`) -/

/-- The attributes of `HiAgentLLMClient` that `create_conversation` sets:
`app_conversation_id` and `user_id` are declared but unset until the first
successful call (client.py lines 10-11, 45-48). -/
structure ClientState where
  appConversationId : Option JVal
  userId : Option (List Char)

/-- The state of a `HiAgentChatLLM` instance: the wrapped client and the
`_conversation_created` flag (chat_model.py lines 27-34). -/
structure FacadeState where
  client : ClientState
  conversationCreated : Bool

/-- The façade state produced by `HiAgentChatLLM.__init__`: a fresh client
with both identifier attributes unset, and the flag `False`. -/
def initFacade : FacadeState :=
  ⟨⟨none, none⟩, false⟩

/-- Outcome of the HTTP POST inside `create_conversation`, as the adapter
sees it: a `requests.RequestException` (connection failure, timeout, or
`raise_for_status` on a non-2xx status), or a 2xx response with a parsed
JSON body. -/
inductive CreateOutcome where
  | transportErr : CreateOutcome
  | success : JVal → CreateOutcome

/-- Result of `create_conversation`: the client state afterwards, the
returned body or raised exception, and whether the method's
`except requests.RequestException` handler logged the error. -/
structure CreateResult where
  state : ClientState
  result : Except PyExc JVal
  logged : Bool

/-- `HiAgentLLMClient.create_conversation` (client.py lines 31-52).
On transport failure the handler logs and re-raises. On a 2xx response it
evaluates `response.json().get("Conversation").get("AppConversationID")`;
an `AttributeError` from that chain is not covered by the
`except requests.RequestException` clause, so it propagates unlogged and
neither attribute is assigned. On success both attributes are assigned and
the body is returned. -/
def createConversation (st : ClientState) (userId : List Char) (o : CreateOutcome) :
    CreateResult :=
  match o with
  | .transportErr => ⟨st, .error .requestException, true⟩
  | .success body =>
    match pyGet body "Conversation".data with
    | .error e => ⟨st, .error e, false⟩
    | .ok conv =>
      match pyGet conv "AppConversationID".data with
      | .error e => ⟨st, .error e, false⟩
      | .ok cid => ⟨⟨some cid, some userId⟩, .ok body, false⟩

/-- `True` exactly when `create_conversation` would run to completion on
this outcome (2xx response whose body survives the attribute chain). -/
def createSucceeds (o : CreateOutcome) : Bool :=
  match o with
  | .transportErr => false
  | .success body =>
    match pyGet body "Conversation".data with
    | .error _ => false
    | .ok conv =>
      match pyGet conv "AppConversationID".data with
      | .error _ => false
      | .ok _ => true

/-- Result of `_ensure_conversation`: the façade state afterwards, the
exception it re-raises (if any), and whether `create_conversation` was
invoked. -/
structure EnsureResult where
  state : FacadeState
  raised : Option PyExc
  invoked : Bool

/-- `HiAgentChatLLM._ensure_conversation` (chat_model.py lines 36-43): when
the flag is set, do nothing; otherwise call `create_conversation` with the
fixed user id, and set the flag only after the call returns. -/
def ensureConversation (fs : FacadeState) (o : CreateOutcome) : EnsureResult :=
  if fs.conversationCreated then ⟨fs, none, false⟩
  else
    let r := createConversation fs.client "graphrag_user".data o
    match r.result with
    | .error e => ⟨⟨r.state, false⟩, some e, true⟩
    | .ok _ => ⟨⟨r.state, true⟩, none, true⟩

/-- A sequence of sequential `chat`/`chat_stream` calls on one façade
instance, observed at the `_ensure_conversation` step each call begins with
(the rest of either method never touches the flag or the identifiers).
Each entry: whether `create_conversation` was invoked during the call, the
exception the call raised (if any), and the façade state after the call;
an exception propagates to that call's caller and the instance survives for
the next call. -/
def facadeTrace (fs : FacadeState) : List CreateOutcome → List (Bool × Option PyExc × FacadeState)
  | [] => []
  | o :: os =>
    let r := ensureConversation fs o
    (r.invoked, r.raised, r.state) :: facadeTrace r.state os

/-- The host framework's response shape built by `chat` (chat_model.py
lines 139-142): output text and optional parsed structured value. -/
structure ModelResponse where
  content : JVal
  parsedResponse : Option JVal

/-- `HiAgentChatLLM.chat` (chat_model.py lines 103-142): ensure the
conversation, issue the blocking call, read `response.get("answer", "")`,
and if `json=True` attempt `json.loads(content)`, swallowing only
`json.JSONDecodeError` (on a non-string content `json.loads` raises
`TypeError`, which is not caught). Returns the façade state afterwards and
the response or raised exception. -/
def chat (jsonParse : List Char → Option JVal) (fs : FacadeState)
    (createO : CreateOutcome) (blockingO : Except PyExc JVal) (jsonKw : Bool) :
    FacadeState × Except PyExc ModelResponse :=
  let r := ensureConversation fs createO
  match r.raised with
  | some e => (r.state, .error e)
  | none =>
    match blockingO with
    | .error e => (r.state, .error e)
    | .ok resp =>
      match pyGetD resp "answer".data (.str []) with
      | .error e => (r.state, .error e)
      | .ok content =>
        if jsonKw then
          match content with
          | .str s => (r.state, .ok ⟨content, jsonParse s⟩)
          | _ => (r.state, .error .typeError)
        else (r.state, .ok ⟨content, none⟩)

/-- Python `v == "lit"` for a decoded JSON value against a string literal. -/
def jvalEqStr (v : JVal) (s : List Char) : Bool :=
  match v with
  | .str t => t = s
  | _ => false

/-- `True` exactly when the value is a JSON object (a Python dict). -/
def isObj : JVal → Bool
  | .obj _ => true
  | _ => false

/-- The event-filtering loop of `HiAgentChatLLM.chat_stream` (chat_model.py
lines 164-172), run over the events the client yields: re-yield
`data.get("answer", "")` for events with `data.get("event") == "message"`
and truthy answer. Yields so far and the exception aborting the generator,
if any (`data.get` on a non-dict event raises `AttributeError`). -/
def chatStreamYields : List JVal → List JVal × Option PyExc
  | [] => ([], none)
  | d :: ds =>
    match pyGet d "event".data with
    | .error e => ([], some e)
    | .ok ev =>
      if jvalEqStr ev "message".data then
        match pyGetD d "answer".data (.str []) with
        | .error e => ([], some e)
        | .ok answer =>
          if pyTruthy answer then
            let r := chatStreamYields ds
            (answer :: r.1, r.2)
          else chatStreamYields ds
      else chatStreamYields ds

/-- The inner `stream_generator` of `HiAgentChatLLM.achat_stream`
(chat_model.py lines 89-98), the same filtering loop written a second time
in the source. -/
def streamGeneratorYields : List JVal → List JVal × Option PyExc
  | [] => ([], none)
  | d :: ds =>
    match pyGet d "event".data with
    | .error e => ([], some e)
    | .ok ev =>
      if jvalEqStr ev "message".data then
        match pyGetD d "answer".data (.str []) with
        | .error e => ([], some e)
        | .ok answer =>
          if pyTruthy answer then
            let r := streamGeneratorYields ds
            (answer :: r.1, r.2)
          else streamGeneratorYields ds
      else streamGeneratorYields ds

/-- `HiAgentChatLLM.achat_stream` (chat_model.py lines 67-101) as seen by
its consumer: `list(stream_generator())` is fully materialized in the
executor, then re-yielded; if the materialization raises, the exception
reaches the awaiting coroutine before anything is yielded. -/
def asyncStreamYields (events : List JVal) : List JVal × Option PyExc :=
  match streamGeneratorYields events with
  | (_, some e) => ([], some e)
  | (l, none) => (l, none)

/-- `HiAgentChatLLM.achat` (chat_model.py lines 45-65): the synchronous
`chat` delegated to `loop.run_in_executor`, whose awaited result is exactly
the delegate's return value. -/
def achat (jsonParse : List Char → Option JVal) (fs : FacadeState)
    (createO : CreateOutcome) (blockingO : Except PyExc JVal) (jsonKw : Bool) :
    FacadeState × Except PyExc ModelResponse :=
  chat jsonParse fs createO blockingO jsonKw

/-- Specification-side description of one event's contribution to
`chat_stream`: for a dict event, its answer field (default the empty
string) when the event kind is `message` and the answer is truthy. -/
def messageAnswer (d : JVal) : Option JVal :=
  match d with
  | .obj fs =>
    let ev := (fs.lookup "event".data).getD .null
    let ans := (fs.lookup "answer".data).getD (.str [])
    if jvalEqStr ev "message".data && pyTruthy ans then some ans else none
  | _ => none

/-! ### Façade lemmas -/

theorem ensureConversation_of_created {fs : FacadeState} (h : fs.conversationCreated = true)
    (o : CreateOutcome) : ensureConversation fs o = ⟨fs, none, false⟩ := by
  simp [ensureConversation, h]

theorem facadeTrace_of_created (fs : FacadeState) (h : fs.conversationCreated = true)
    (os : List CreateOutcome) :
    facadeTrace fs os = os.map (fun _ => (false, none, fs)) := by
  induction os with
  | nil => rfl
  | cons o os ih => simp [facadeTrace, ensureConversation_of_created h, ih]

theorem ensureConversation_succeeds (fs : FacadeState) (h : fs.conversationCreated = false)
    {o : CreateOutcome} (hs : createSucceeds o = true) :
    ∃ cs : ClientState, ensureConversation fs o = ⟨⟨cs, true⟩, none, true⟩ := by
  obtain ⟨cl, flag⟩ := fs
  simp only at h
  subst h
  cases o with
  | transportErr => simp [createSucceeds] at hs
  | success body =>
    simp only [createSucceeds] at hs
    cases h1 : pyGet body "Conversation".data with
    | error e => simp [h1] at hs
    | ok conv =>
      cases h2 : pyGet conv "AppConversationID".data with
      | error e => simp [h1, h2] at hs
      | ok cid =>
        refine ⟨⟨some cid, some "graphrag_user".data⟩, ?_⟩
        simp [ensureConversation, createConversation, h1, h2]

theorem ensureConversation_fails (fs : FacadeState) (h : fs.conversationCreated = false)
    {o : CreateOutcome} (hs : createSucceeds o = false) :
    ∃ e : PyExc, ensureConversation fs o = ⟨fs, some e, true⟩ := by
  obtain ⟨cl, flag⟩ := fs
  simp only at h
  subst h
  cases o with
  | transportErr =>
    exact ⟨.requestException, by simp [ensureConversation, createConversation]⟩
  | success body =>
    simp only [createSucceeds] at hs
    cases h1 : pyGet body "Conversation".data with
    | error e =>
      refine ⟨e, ?_⟩
      simp [ensureConversation, createConversation, h1]
    | ok conv =>
      cases h2 : pyGet conv "AppConversationID".data with
      | error e =>
        refine ⟨e, ?_⟩
        simp [ensureConversation, createConversation, h1, h2]
      | ok cid => simp [h1, h2] at hs

theorem chatStreamYields_of_obj (events : List JVal)
    (h : ∀ d ∈ events, isObj d = true) :
    chatStreamYields events = (events.filterMap messageAnswer, none) := by
  induction events with
  | nil => rfl
  | cons d ds ih =>
    have hd : isObj d = true := h d (by simp)
    have hds := ih fun x hx => h x (by simp [hx])
    cases d with
    | obj fs =>
      simp only [chatStreamYields, pyGet, pyGetD, List.filterMap_cons, messageAnswer]
      by_cases hev : jvalEqStr ((fs.lookup "event".data).getD .null) "message".data
      · by_cases hans : pyTruthy ((fs.lookup "answer".data).getD (.str []))
        · simp [hev, hans, hds]
        · simp [hev, hans, hds]
      · simp [hev, hds]
    | null => simp [isObj] at hd
    | bool b => simp [isObj] at hd
    | num n => simp [isObj] at hd
    | str s => simp [isObj] at hd
    | arr xs => simp [isObj] at hd

theorem streamGeneratorYields_eq_chatStreamYields (events : List JVal) :
    streamGeneratorYields events = chatStreamYields events := by
  induction events with
  | nil => rfl
  | cons d ds ih =>
    simp only [streamGeneratorYields, chatStreamYields]
    cases pyGet d "event".data with
    | error e => rfl
    | ok ev =>
      by_cases hev : jvalEqStr ev "message".data
      · simp only [hev, if_true]
        cases pyGetD d "answer".data (.str []) with
        | error e => rfl
        | ok answer =>
          by_cases hans : pyTruthy answer <;> simp [hans, ih]
      · simp [hev, ih]

/-! ### Concrete instances used by the witnesses -/

/-- A concrete instance of the UTF-8 decoding parameter: decodes pure ASCII
byte lists (on which it agrees with `bytes.decode("utf-8")`) and fails on
anything else. -/
def decodeAscii (bs : List Nat) : Option (List Char) :=
  if bs.all (· < 128) then some (bs.map Char.ofNat) else none

/-- A concrete instance of the JSON parsing parameter: accepts the two JSON
documents `7` and `8` and rejects everything else. -/
def parseToy (s : List Char) : Option JVal :=
  if s = "7".data then some (.num 7)
  else if s = "8".data then some (.num 8)
  else none

/-- Byte string of an ASCII string literal. -/
def strBytes (s : String) : List Nat :=
  s.data.map Char.toNat

/-- A callback that raises `json.JSONDecodeError` on the event `7` and
succeeds on everything else. -/
def cbFailOn7 : JVal → Except PyExc Unit := fun d =>
  match d with
  | .num n => if n = 7 then .error .jsonDecodeError else .ok ()
  | _ => .ok ()

/-- A callback that raises a generic exception on the event `8` and
succeeds on everything else. -/
def cbAbortOn8 : JVal → Except PyExc Unit := fun d =>
  match d with
  | .num n => if n = 8 then .error (.other 0) else .ok ()
  | _ => .ok ()

/-- The given ASCII string delivered as a sequence of one-byte chunks. -/
def oneByteChunks (s : String) : List (List Nat) :=
  (strBytes s).map (fun b => [b])

/-- A create-conversation response body that survives the
`get("Conversation").get("AppConversationID")` chain. -/
def goodBody : JVal :=
  .obj [("Conversation".data, .obj [("AppConversationID".data, .str "cid".data)])]

/-! ## The claims -/

/-- C1: for every byte sequence consisting of one or more `data: <json>`
lines each terminated by a newline byte, and every splitting of it into
non-empty chunks (including one-byte chunks), iterating the decoder over
the chunks yields exactly the same ordered sequence of parsed JSON events
as feeding the whole sequence as a single chunk. -/
theorem streaming_chunk_split_invariance
    (decodeUtf8 : List Nat → Option (List Char)) (jsonParse : List Char → Option JVal)
    (chunks : List (List Nat)) (lines : List (List Nat))
    (hne : ∀ c ∈ chunks, c ≠ [])
    (hlines : lines ≠ [])
    (hbody : chunks.flatten = (lines.map (fun l => l ++ [10])).flatten)
    (hdata : ∀ l ∈ lines, ∃ j, processLine decodeUtf8 jsonParse l = some j) :
    chatQueryStreaming decodeUtf8 jsonParse chunks =
      chatQueryStreaming decodeUtf8 jsonParse [chunks.flatten] :=
  chatQueryStreaming_join decodeUtf8 jsonParse chunks

theorem streaming_chunk_split_invariance_witness :
    (∀ c ∈ oneByteChunks "data: 7\n", c ≠ [])
    ∧ ([strBytes "data: 7"] ≠ ([] : List (List Nat)))
    ∧ (oneByteChunks "data: 7\n").flatten =
        ([strBytes "data: 7"].map (fun l => l ++ [10])).flatten
    ∧ (∀ l ∈ [strBytes "data: 7"], ∃ j, processLine decodeAscii parseToy l = some j)
    ∧ chatQueryStreaming decodeAscii parseToy (oneByteChunks "data: 7\n") =
        chatQueryStreaming decodeAscii parseToy [(oneByteChunks "data: 7\n").flatten]
    ∧ chatQueryStreaming decodeAscii parseToy (oneByteChunks "data: 7\n") = [JVal.num 7] := by
  have hdata : ∀ l ∈ [strBytes "data: 7"], ∃ j, processLine decodeAscii parseToy l = some j := by
    intro l hl
    rw [List.mem_singleton] at hl
    subst hl
    exact ⟨JVal.num 7, rfl⟩
  exact ⟨by decide, by decide, by decide, hdata,
    streaming_chunk_split_invariance decodeAscii parseToy _ [strBytes "data: 7"]
      (by decide) (by decide) (by decide) hdata, rfl⟩

/-- C2: after the chunks are exhausted, a non-empty trailing fragment with
no terminating newline yields exactly one extra event when it decodes,
starts with `data:` and parses as JSON, and nothing otherwise (no error in
either case); the events yielded before it are unaffected. -/
theorem trailing_fragment_best_effort
    (decodeUtf8 : List Nat → Option (List Char)) (jsonParse : List Char → Option JVal)
    (chunks : List (List Nat))
    (h : (drainBuffer chunks.flatten).2 ≠ []) :
    chatQueryStreaming decodeUtf8 jsonParse chunks =
      (drainBuffer chunks.flatten).1.filterMap (processLine decodeUtf8 jsonParse)
        ++ (processTrailing decodeUtf8 jsonParse (drainBuffer chunks.flatten).2).toList
    ∧ ∀ j : JVal,
        processTrailing decodeUtf8 jsonParse (drainBuffer chunks.flatten).2 = some j ↔
          ∃ s : List Char,
            decodeUtf8 (drainBuffer chunks.flatten).2 = some s
            ∧ pyStartsWith (pyStrip s) "data:".data = true
            ∧ jsonParse (pyStrip ((pyStrip s).drop 5)) = some j := by
  constructor
  · unfold chatQueryStreaming
    rw [mainEvents_eq_drain _ _ chunks [] (by simp)]
    simp [h]
  · intro j
    unfold processTrailing
    cases hd : decodeUtf8 (drainBuffer chunks.flatten).2 with
    | none => simp
    | some s =>
      by_cases hsw : pyStartsWith (pyStrip s) "data:".data
      · simp [hsw]
      · simp [hsw]

theorem trailing_fragment_best_effort_witness :
    ((drainBuffer (oneByteChunks "data: 7\ndata: 8").flatten).2 ≠ [])
    ∧ (chatQueryStreaming decodeAscii parseToy (oneByteChunks "data: 7\ndata: 8") =
        (drainBuffer (oneByteChunks "data: 7\ndata: 8").flatten).1.filterMap
            (processLine decodeAscii parseToy)
          ++ (processTrailing decodeAscii parseToy
              (drainBuffer (oneByteChunks "data: 7\ndata: 8").flatten).2).toList
        ∧ ∀ j : JVal,
            processTrailing decodeAscii parseToy
                (drainBuffer (oneByteChunks "data: 7\ndata: 8").flatten).2 = some j ↔
              ∃ s : List Char,
                decodeAscii (drainBuffer (oneByteChunks "data: 7\ndata: 8").flatten).2 = some s
                ∧ pyStartsWith (pyStrip s) "data:".data = true
                ∧ parseToy (pyStrip ((pyStrip s).drop 5)) = some j)
    ∧ chatQueryStreaming decodeAscii parseToy (oneByteChunks "data: 7\ndata: 8") =
        [JVal.num 7, JVal.num 8] :=
  ⟨by decide, trailing_fragment_best_effort decodeAscii parseToy _ (by decide), rfl⟩

/-- C3 as stated is false at this input: on the stream
`data: 7\ndata: 8\n` with a callback that raises `json.JSONDecodeError` on
the first decoded event, the exception is caught by the decoder (the
`on_message` call sits inside the `try .. except json.JSONDecodeError`
block), iteration continues, and the second event is still yielded with no
exception escaping. -/
theorem callback_exception_caught_counterexample :
    chatQueryStreaming decodeAscii parseToy (oneByteChunks "data: 7\ndata: 8\n") =
      [JVal.num 7, JVal.num 8]
    ∧ cbFailOn7 (JVal.num 7) = .error .jsonDecodeError
    ∧ chatQueryStreamingCb decodeAscii parseToy cbFailOn7
        (oneByteChunks "data: 7\ndata: 8\n") = ([JVal.num 8], none) :=
  ⟨rfl, rfl, rfl⟩

/-- C3 (amended): on every input, the decoder with a callback behaves as
`cbRunSpec` over its own events: the callback is invoked with each parsed
event before that event would be yielded; if it succeeds the event is
yielded; if it raises any exception other than `json.JSONDecodeError`, the
exception propagates uncaught and aborts iteration after the events already
yielded; if it raises `json.JSONDecodeError`, the decoder's frame-level
handler catches it, the event is skipped, and iteration continues; for the
best-effort trailing no-newline event, a `UnicodeDecodeError` raised by the
callback is likewise swallowed. -/
theorem callback_before_yield_spec
    (decodeUtf8 : List Nat → Option (List Char)) (jsonParse : List Char → Option JVal)
    (onMessage : JVal → Except PyExc Unit) (chunks : List (List Nat)) :
    chatQueryStreamingCb decodeUtf8 jsonParse onMessage chunks =
      cbRunSpec onMessage (mainEvents decodeUtf8 jsonParse [] chunks).1
        (if (mainEvents decodeUtf8 jsonParse [] chunks).2 = [] then none
          else processTrailing decodeUtf8 jsonParse
            (mainEvents decodeUtf8 jsonParse [] chunks).2) := by
  obtain ⟨h1, h2, h3⟩ :=
    mainEventsCb_eq_cbSpec decodeUtf8 jsonParse onMessage chunks []
  unfold chatQueryStreamingCb cbRunSpec
  rcases hc : mainEventsCb decodeUtf8 jsonParse onMessage [] chunks with ⟨evs, buf2, err⟩
  rw [hc] at h1 h2 h3
  simp only at h1 h2 h3
  have hcs2 : cbSpec onMessage (mainEvents decodeUtf8 jsonParse [] chunks).1 =
      (evs, err) := by
    rw [h1, h2]
  rw [hcs2]
  cases err with
  | some e => rfl
  | none =>
    have hb := h3 rfl
    subst hb
    by_cases hm : (mainEvents decodeUtf8 jsonParse [] chunks).2 = []
    · simp [hm, cbTrailSpec]
    · simp only [if_neg hm]
      rw [trailingCb_eq_cbTrailSpec]

theorem ensureConversation_invoked (fs : FacadeState)
    (h : fs.conversationCreated = false) (o : CreateOutcome) :
    (ensureConversation fs o).invoked = true := by
  unfold ensureConversation
  rw [if_neg (by simp [h])]
  dsimp only
  cases (createConversation fs.client "graphrag_user".data o).result <;> rfl

/-- C4: over any finite sequence of sequential `chat`/`chat_stream` calls
on a fresh façade instance in which the create-conversation calls succeed,
`create_conversation` is invoked exactly on the first call and never again,
and after every call the `_conversation_created` flag is `True`: it went
from `False` to `True` once and is never reset. -/
theorem conversation_created_at_most_once (os : List CreateOutcome)
    (h : ∀ o ∈ os, createSucceeds o = true) :
    ((facadeTrace initFacade os).map fun t => t.1) =
      (if os.isEmpty then [] else true :: List.replicate (os.length - 1) false)
    ∧ ((facadeTrace initFacade os).map fun t => t.2.2.conversationCreated) =
      List.replicate os.length true := by
  cases os with
  | nil => simp [facadeTrace]
  | cons o os' =>
    obtain ⟨cs, hok⟩ :=
      ensureConversation_succeeds initFacade rfl (h o (by simp))
    simp only [facadeTrace, hok]
    rw [facadeTrace_of_created ⟨cs, true⟩ rfl os']
    constructor
    · simp [List.map_map, Function.comp_def, List.map_const']
    · simp [List.map_map, Function.comp_def, List.map_const', List.replicate_succ]

theorem conversation_created_at_most_once_witness :
    (∀ o ∈ [CreateOutcome.success goodBody, CreateOutcome.success goodBody],
      createSucceeds o = true)
    ∧ ((facadeTrace initFacade
          [CreateOutcome.success goodBody, CreateOutcome.success goodBody]).map
            fun t => t.1) =
        (if [CreateOutcome.success goodBody, CreateOutcome.success goodBody].isEmpty
          then [] else true :: List.replicate
            ([CreateOutcome.success goodBody, CreateOutcome.success goodBody].length - 1) false)
    ∧ ((facadeTrace initFacade
          [CreateOutcome.success goodBody, CreateOutcome.success goodBody]).map
            fun t => t.2.2.conversationCreated) =
        List.replicate
          [CreateOutcome.success goodBody, CreateOutcome.success goodBody].length true := by
  have h : ∀ o ∈ [CreateOutcome.success goodBody, CreateOutcome.success goodBody],
      createSucceeds o = true := by
    intro o ho
    rcases List.mem_cons.mp ho with h1 | h1
    · subst h1; rfl
    · rcases List.mem_cons.mp h1 with h2 | h2
      · subst h2; rfl
      · simp at h2
  obtain ⟨c1, c2⟩ := conversation_created_at_most_once _ h
  exact ⟨h, c1, c2⟩

/-- C5: over any sequence of dict events produced by the streaming call,
`chat_stream` yields exactly the `answer` fields of the events whose
`event` field equals `"message"` and whose answer is non-empty, in order;
other event kinds and message events with empty or absent answers never
cause a yield, and no exception is raised. -/
theorem chat_stream_message_filter (events : List JVal)
    (h : ∀ d ∈ events, isObj d = true) :
    chatStreamYields events = (events.filterMap messageAnswer, none) :=
  chatStreamYields_of_obj events h

theorem chat_stream_message_filter_witness :
    (∀ d ∈ [JVal.obj [("event".data, .str "message".data), ("answer".data, .str "hi".data)],
        JVal.obj [("event".data, .str "done".data), ("answer".data, .str "x".data)],
        JVal.obj [("event".data, .str "message".data), ("answer".data, .str [])],
        JVal.obj [("event".data, .str "message".data)]], isObj d = true)
    ∧ chatStreamYields
        [JVal.obj [("event".data, .str "message".data), ("answer".data, .str "hi".data)],
          JVal.obj [("event".data, .str "done".data), ("answer".data, .str "x".data)],
          JVal.obj [("event".data, .str "message".data), ("answer".data, .str [])],
          JVal.obj [("event".data, .str "message".data)]] =
      ([JVal.obj [("event".data, .str "message".data), ("answer".data, .str "hi".data)],
          JVal.obj [("event".data, .str "done".data), ("answer".data, .str "x".data)],
          JVal.obj [("event".data, .str "message".data), ("answer".data, .str [])],
          JVal.obj [("event".data, .str "message".data)]].filterMap messageAnswer, none)
    ∧ chatStreamYields
        [JVal.obj [("event".data, .str "message".data), ("answer".data, .str "hi".data)],
          JVal.obj [("event".data, .str "done".data), ("answer".data, .str "x".data)],
          JVal.obj [("event".data, .str "message".data), ("answer".data, .str [])],
          JVal.obj [("event".data, .str "message".data)]] =
      ([JVal.str "hi".data], none) := by
  have h : ∀ d ∈ [JVal.obj [("event".data, .str "message".data), ("answer".data, .str "hi".data)],
      JVal.obj [("event".data, .str "done".data), ("answer".data, .str "x".data)],
      JVal.obj [("event".data, .str "message".data), ("answer".data, .str [])],
      JVal.obj [("event".data, .str "message".data)]], isObj d = true := by
    intro d hd
    simp only [List.mem_cons, List.not_mem_nil, or_false] at hd
    rcases hd with h1 | h1 | h1 | h1 <;> (subst h1; rfl)
  exact ⟨h, chat_stream_message_filter _ h, rfl⟩

/-- C6: when structured output is requested (`json=True`) and the blocking
call succeeds with an answer text that does not parse as JSON, `chat`
returns a response whose output text is that answer text and whose parsed
field is `None`; no JSON parse error propagates. -/
theorem chat_json_failure_returns_text (jsonParse : List Char → Option JVal)
    (fs : FacadeState) (createO : CreateOutcome)
    (fields : List (List Char × JVal)) (s : List Char)
    (hens : (ensureConversation fs createO).raised = none)
    (hanswer : (fields.lookup "answer".data).getD (.str []) = .str s)
    (hparse : jsonParse s = none) :
    (chat jsonParse fs createO (.ok (.obj fields)) true).2 = .ok ⟨.str s, none⟩ := by
  unfold chat
  dsimp only
  rw [hens]
  simp [pyGetD, hanswer, hparse]

theorem chat_json_failure_returns_text_witness :
    ((ensureConversation ⟨⟨none, none⟩, true⟩ CreateOutcome.transportErr).raised = none)
    ∧ (([(("answer".data : List Char), JVal.str "notjson".data)].lookup
        "answer".data).getD (.str []) = JVal.str "notjson".data)
    ∧ parseToy "notjson".data = none
    ∧ (chat parseToy ⟨⟨none, none⟩, true⟩ CreateOutcome.transportErr
        (.ok (.obj [("answer".data, .str "notjson".data)])) true).2 =
      .ok ⟨.str "notjson".data, none⟩ :=
  ⟨rfl, rfl, rfl,
    chat_json_failure_returns_text parseToy ⟨⟨none, none⟩, true⟩ CreateOutcome.transportErr
      [("answer".data, .str "notjson".data)] "notjson".data rfl rfl rfl⟩

/-- C7: a fully assembled line that, after UTF-8 decoding and whitespace
trimming, is empty or does not start with `data:` produces no event: nothing
is yielded, the callback is not invoked, and no exception is raised. -/
theorem non_data_line_yields_nothing
    (decodeUtf8 : List Nat → Option (List Char)) (jsonParse : List Char → Option JVal)
    (onMessage : JVal → Except PyExc Unit) (lineBytes : List Nat) (s : List Char)
    (h1 : decodeUtf8 lineBytes = some s)
    (h2 : pyStrip s = [] ∨ pyStartsWith (pyStrip s) "data:".data = false) :
    processLine decodeUtf8 jsonParse lineBytes = none
    ∧ lineStepCb decodeUtf8 jsonParse onMessage lineBytes = (false, none, none) := by
  unfold processLine lineStepCb
  rw [h1]
  rcases h2 with h2 | h2
  · simp [h2]
  · by_cases h3 : pyStrip s = []
    · simp [h3]
    · simp [h3, h2]

theorem non_data_line_yields_nothing_witness :
    decodeAscii (strBytes "event: x") = some "event: x".data
    ∧ (pyStrip "event: x".data = []
        ∨ pyStartsWith (pyStrip "event: x".data) "data:".data = false)
    ∧ processLine decodeAscii parseToy (strBytes "event: x") = none
    ∧ lineStepCb decodeAscii parseToy cbAbortOn8 (strBytes "event: x") =
        (false, none, none) := by
  obtain ⟨c1, c2⟩ := non_data_line_yields_nothing decodeAscii parseToy cbAbortOn8
    (strBytes "event: x") "event: x".data rfl (Or.inr (by decide))
  exact ⟨rfl, Or.inr (by decide), c1, c2⟩

/-- C8: `achat` returns exactly what `chat` returns on the same arguments,
and over any sequence of dict events `achat_stream` yields the same ordered
fragments as `chat_stream`; the asynchronous variants differ only in
scheduling. -/
theorem async_variants_match_sync (jsonParse : List Char → Option JVal)
    (fs : FacadeState) (createO : CreateOutcome) (blockingO : Except PyExc JVal)
    (jsonKw : Bool) (events : List JVal)
    (h : ∀ d ∈ events, isObj d = true) :
    achat jsonParse fs createO blockingO jsonKw = chat jsonParse fs createO blockingO jsonKw
    ∧ asyncStreamYields events = chatStreamYields events := by
  refine ⟨rfl, ?_⟩
  unfold asyncStreamYields
  rw [streamGeneratorYields_eq_chatStreamYields, chatStreamYields_of_obj events h]

theorem async_variants_match_sync_witness :
    (∀ d ∈ [JVal.obj [("event".data, .str "message".data), ("answer".data, .str "ab".data)],
        JVal.obj [("event".data, .str "done".data)]], isObj d = true)
    ∧ achat parseToy initFacade (CreateOutcome.success goodBody) (.ok (.obj [])) false =
        chat parseToy initFacade (CreateOutcome.success goodBody) (.ok (.obj [])) false
    ∧ asyncStreamYields
        [JVal.obj [("event".data, .str "message".data), ("answer".data, .str "ab".data)],
          JVal.obj [("event".data, .str "done".data)]] =
      chatStreamYields
        [JVal.obj [("event".data, .str "message".data), ("answer".data, .str "ab".data)],
          JVal.obj [("event".data, .str "done".data)]] := by
  have h : ∀ d ∈ [JVal.obj [("event".data, .str "message".data), ("answer".data, .str "ab".data)],
      JVal.obj [("event".data, .str "done".data)]], isObj d = true := by
    intro d hd
    simp only [List.mem_cons, List.not_mem_nil, or_false] at hd
    rcases hd with h1 | h1 <;> (subst h1; rfl)
  obtain ⟨c1, c2⟩ := async_variants_match_sync parseToy initFacade
    (CreateOutcome.success goodBody) (.ok (.obj [])) false _ h
  exact ⟨h, c1, c2⟩

/-- C9: a 2xx create-conversation response whose JSON body lacks the
`Conversation` key (or maps it to `null`) makes `create_conversation` raise
`AttributeError` — not a `RequestException`, not caught or logged by the
method's handler — and leaves `app_conversation_id` and `user_id` unset
(the client state is returned unchanged). -/
theorem create_missing_key_attribute_error (st : ClientState) (uid : List Char)
    (fields : List (List Char × JVal))
    (h : fields.lookup "Conversation".data = none
      ∨ fields.lookup "Conversation".data = some .null) :
    createConversation st uid (.success (.obj fields)) =
      ⟨st, .error .attributeError, false⟩ := by
  rcases h with h | h <;> simp [createConversation, pyGet, h]

theorem create_missing_key_attribute_error_witness :
    (([] : List (List Char × JVal)).lookup "Conversation".data = none
      ∨ ([] : List (List Char × JVal)).lookup "Conversation".data = some .null)
    ∧ createConversation ⟨none, none⟩ "u".data (.success (.obj [])) =
      ⟨⟨none, none⟩, .error .attributeError, false⟩ :=
  ⟨Or.inl rfl,
    create_missing_key_attribute_error ⟨none, none⟩ "u".data [] (Or.inl rfl)⟩

/-- C10: when `create_conversation` raises during the first call, the flag
stays `False` and the client identifiers stay unset (the façade state after
the call is exactly the fresh state), so the next sequential call invokes
`create_conversation` again; the at-most-once guarantee covers successful
creations only. -/
theorem create_failure_leaves_state_and_retries (o o₂ : CreateOutcome)
    (os : List CreateOutcome) (h : createSucceeds o = false) :
    ∃ e : PyExc,
      facadeTrace initFacade (o :: o₂ :: os) =
        (true, some e, initFacade) :: facadeTrace initFacade (o₂ :: os)
      ∧ ((facadeTrace initFacade (o₂ :: os)).head?.map fun t => t.1) = some true := by
  obtain ⟨e, he⟩ := ensureConversation_fails initFacade rfl h
  refine ⟨e, ?_, ?_⟩
  · conv_lhs => rw [facadeTrace]
    rw [he]
  · simp only [facadeTrace, List.head?_cons, Option.map_some]
    rw [ensureConversation_invoked initFacade rfl o₂]
    rfl

theorem create_failure_leaves_state_and_retries_witness :
    createSucceeds CreateOutcome.transportErr = false
    ∧ (∃ e : PyExc,
        facadeTrace initFacade
            [CreateOutcome.transportErr, CreateOutcome.success goodBody] =
          (true, some e, initFacade)
            :: facadeTrace initFacade [CreateOutcome.success goodBody]
        ∧ ((facadeTrace initFacade [CreateOutcome.success goodBody]).head?.map
            fun t => t.1) = some true)
    ∧ ((facadeTrace initFacade
        [CreateOutcome.transportErr, CreateOutcome.success goodBody]).map
          fun t => t.1) = [true, true] :=
  ⟨rfl,
    create_failure_leaves_state_and_retries CreateOutcome.transportErr
      (CreateOutcome.success goodBody) [] rfl, rfl⟩

end Hiagent
